import Mathlib

/-!
Verification development for the PhyloClimb repository: a shallow embedding
of the feeding/evolution engine, grapple controller, ground/fall tracker and
hazard gimmicks, with theorems about the specified properties.
-/

namespace PhyloClimb

/- ===================== src/constants.ts ===================== -/

def GRAPPLE_RANGE : ℚ := 400
def REEL_SPEED : ℚ := 3
def MIN_ROPE_LENGTH : ℚ := 30
def MAX_HP : ℤ := 100
def FALL_THRESHOLD_SMALL : ℚ := 100
def FALL_THRESHOLD_MEDIUM : ℚ := 300
def FALL_THRESHOLD_LARGE : ℚ := 600
def COLOR_FAKE_HOOK : ℕ := 0xeedd44
def FAKE_HOOK_DETACH_TIME : ℚ := 1000
def FAKE_HOOK_WARN_TIME : ℚ := 600
def BREAKABLE_COLLAPSE_TIME : ℚ := 800
def BREAKABLE_WARN_TIME : ℚ := 400
def BREAKABLE_RESPAWN_TIME : ℚ := 5000

/- ===================== src/data/foodTypes.ts, src/data/evolutionTree.ts ====== -/

inductive FoodTypeId
  | dust | sap
deriving DecidableEq, Repr

inductive EvolutionNodeId
  | stretch1 | stretch2 | sticky1
  | jump1 | jump2 | traction1
deriving DecidableEq, Repr

structure EvolutionNode where
  branch : FoodTypeId
  tier : ℕ
  threshold : ℕ
  prev : Option EvolutionNodeId
deriving DecidableEq, Repr

/-- The static evolution tree of `src/data/evolutionTree.ts` (chain variant):
two branches of three tiers each, thresholds 10 / 25 / 50. -/
def evolutionTree : EvolutionNodeId → EvolutionNode
  | .stretch1  => ⟨.dust, 1, 10, none⟩
  | .stretch2  => ⟨.dust, 2, 25, some .stretch1⟩
  | .sticky1   => ⟨.dust, 3, 50, some .stretch2⟩
  | .jump1     => ⟨.sap, 1, 10, none⟩
  | .jump2     => ⟨.sap, 2, 25, some .jump1⟩
  | .traction1 => ⟨.sap, 3, 50, some .jump2⟩

/-- `ALL_NODE_IDS` of `src/data/evolutionTree.ts`: within each branch the
nodes are listed in ascending tier order. -/
def ALL_NODE_IDS : List EvolutionNodeId :=
  [.stretch1, .stretch2, .sticky1, .jump1, .jump2, .traction1]

/-- The tier-ordered chain of a branch (the branch's nodes in the order they
occur in `ALL_NODE_IDS`). -/
def branchChain : FoodTypeId → List EvolutionNodeId
  | .dust => [.stretch1, .stretch2, .sticky1]
  | .sap  => [.jump1, .jump2, .traction1]

/- ===================== src/systems/FeedingSystem.ts (src/unnamed/part_005) === -/

/-- State of `FeedingSystem`: food points per type and the set of active
evolutions (modelled as its membership function). -/
structure FeedingState where
  points : FoodTypeId → ℕ
  active : EvolutionNodeId → Bool

def FeedingState.init : FeedingState := ⟨fun _ => 0, fun _ => false⟩

/-- The prerequisite guard of `checkEvolutions`: `node.prev !== null &&
!this.activeEvolutions.has(node.prev)` causes a skip, i.e. the node passes
when its `prev` is `null` or already active. -/
def prevActive (s : FeedingState) (n : EvolutionNodeId) : Bool :=
  match (evolutionTree n).prev with
  | none => true
  | some m => s.active m

/-- One iteration of the `for (const nodeId of ALL_NODE_IDS)` loop in
`FeedingSystem.checkEvolutions`; the accumulator carries the state and the
list of observer notifications fired so far (in order). -/
def checkStep (ft : FoodTypeId) (acc : FeedingState × List EvolutionNodeId)
    (n : EvolutionNodeId) : FeedingState × List EvolutionNodeId :=
  if (evolutionTree n).branch ≠ ft then acc
  else if acc.1.active n then acc
  else if prevActive acc.1 n = false then acc
  else if (evolutionTree n).threshold ≤ acc.1.points ft then
    (⟨acc.1.points, fun m => if m = n then true else acc.1.active m⟩, acc.2 ++ [n])
  else acc

/-- `FeedingSystem.checkEvolutions`: walk `ALL_NODE_IDS`, unlocking every
node of branch `ft` that is not yet active, whose predecessor is active and
whose threshold is met, firing one notification per newly unlocked node. -/
def checkEvolutions (s : FeedingState) (ft : FoodTypeId) :
    FeedingState × List EvolutionNodeId :=
  ALL_NODE_IDS.foldl (checkStep ft) (s, [])

/-- `FeedingSystem.consume`: add `amount` to the pool for `ft`, then check
evolutions for that branch.  Returns the new state and the notification
list of the call. -/
def consume (s : FeedingState) (ft : FoodTypeId) (amount : ℕ) :
    FeedingState × List EvolutionNodeId :=
  checkEvolutions
    ⟨fun f => if f = ft then s.points f + amount else s.points f, s.active⟩ ft

/-- Run a whole sequence of `consume` calls from the initial state. -/
def runTrace (calls : List (FoodTypeId × ℕ)) : FeedingState :=
  calls.foldl (fun s c => (consume s c.1 c.2).1) FeedingState.init

/-- Canonical characterisation: a node is active exactly when its branch's
pool has reached its threshold. -/
def Canonical (s : FeedingState) : Prop :=
  ∀ n, s.active n = decide ((evolutionTree n).threshold ≤ s.points (evolutionTree n).branch)

end PhyloClimb

namespace PhyloClimb

/- ===================== C1 helper lemmas ===================== -/

set_option maxHeartbeats 4000000 in
/-- Consuming dust preserves the canonical characterisation of the active set. -/
theorem consume_canonical_dust (s : FeedingState) (a : ℕ) (h : Canonical s) :
    Canonical (consume s .dust a).1 := by
  have h1 := h .stretch1
  have h2 := h .stretch2
  have h3 := h .sticky1
  have h4 := h .jump1
  have h5 := h .jump2
  have h6 := h .traction1
  simp only [evolutionTree] at h1 h2 h3 h4 h5 h6
  intro n
  by_cases c10 : 10 ≤ s.points FoodTypeId.dust + a <;>
    by_cases c25 : 25 ≤ s.points FoodTypeId.dust + a <;>
    by_cases c50 : 50 ≤ s.points FoodTypeId.dust + a <;>
    by_cases d10 : 10 ≤ s.points FoodTypeId.dust <;>
    by_cases d25 : 25 ≤ s.points FoodTypeId.dust <;>
    by_cases d50 : 50 ≤ s.points FoodTypeId.dust <;>
    first
    | omega
    | (cases n <;>
        simp [consume, checkEvolutions, ALL_NODE_IDS, List.foldl, checkStep, prevActive,
          evolutionTree, h1, h2, h3, h4, h5, h6, c10, c25, c50, d10, d25, d50])

set_option maxHeartbeats 4000000 in
/-- Consuming sap preserves the canonical characterisation of the active set. -/
theorem consume_canonical_sap (s : FeedingState) (a : ℕ) (h : Canonical s) :
    Canonical (consume s .sap a).1 := by
  have h1 := h .stretch1
  have h2 := h .stretch2
  have h3 := h .sticky1
  have h4 := h .jump1
  have h5 := h .jump2
  have h6 := h .traction1
  simp only [evolutionTree] at h1 h2 h3 h4 h5 h6
  intro n
  by_cases c10 : 10 ≤ s.points FoodTypeId.sap + a <;>
    by_cases c25 : 25 ≤ s.points FoodTypeId.sap + a <;>
    by_cases c50 : 50 ≤ s.points FoodTypeId.sap + a <;>
    by_cases d10 : 10 ≤ s.points FoodTypeId.sap <;>
    by_cases d25 : 25 ≤ s.points FoodTypeId.sap <;>
    by_cases d50 : 50 ≤ s.points FoodTypeId.sap <;>
    first
    | omega
    | (cases n <;>
        simp [consume, checkEvolutions, ALL_NODE_IDS, List.foldl, checkStep, prevActive,
          evolutionTree, h1, h2, h3, h4, h5, h6, c10, c25, c50, d10, d25, d50])

/-- Any `consume` call preserves the canonical characterisation. -/
theorem consume_canonical (s : FeedingState) (ft : FoodTypeId) (a : ℕ) (h : Canonical s) :
    Canonical (consume s ft a).1 := by
  cases ft
  · exact consume_canonical_dust s a h
  · exact consume_canonical_sap s a h

/-- The newly-fired notification predicate of a `consume` call: branch matches,
the new pool total reaches the threshold, the old one did not. -/
def newlyUnlocked (s : FeedingState) (ft : FoodTypeId) (a : ℕ) (n : EvolutionNodeId) : Bool :=
  decide ((evolutionTree n).branch = ft)
    && (decide ((evolutionTree n).threshold ≤ s.points ft + a)
        && !decide ((evolutionTree n).threshold ≤ s.points ft))

set_option maxHeartbeats 4000000 in
/-- The notifications of a dust `consume` call are exactly the newly unlocked
nodes, in `ALL_NODE_IDS` (hence ascending tier) order. -/
theorem consume_notifs_dust (s : FeedingState) (a : ℕ) (h : Canonical s) :
    (consume s .dust a).2 = ALL_NODE_IDS.filter (newlyUnlocked s .dust a) := by
  have h1 := h .stretch1
  have h2 := h .stretch2
  have h3 := h .sticky1
  have h4 := h .jump1
  have h5 := h .jump2
  have h6 := h .traction1
  simp only [evolutionTree] at h1 h2 h3 h4 h5 h6
  by_cases c10 : 10 ≤ s.points FoodTypeId.dust + a <;>
    by_cases c25 : 25 ≤ s.points FoodTypeId.dust + a <;>
    by_cases c50 : 50 ≤ s.points FoodTypeId.dust + a <;>
    by_cases d10 : 10 ≤ s.points FoodTypeId.dust <;>
    by_cases d25 : 25 ≤ s.points FoodTypeId.dust <;>
    by_cases d50 : 50 ≤ s.points FoodTypeId.dust <;>
    first
    | omega
    | simp [consume, checkEvolutions, ALL_NODE_IDS, List.foldl, List.filter, checkStep,
        prevActive, newlyUnlocked, evolutionTree, h1, h2, h3, h4, h5, h6,
        c10, c25, c50, d10, d25, d50]

set_option maxHeartbeats 4000000 in
/-- The notifications of a sap `consume` call are exactly the newly unlocked
nodes, in `ALL_NODE_IDS` (hence ascending tier) order. -/
theorem consume_notifs_sap (s : FeedingState) (a : ℕ) (h : Canonical s) :
    (consume s .sap a).2 = ALL_NODE_IDS.filter (newlyUnlocked s .sap a) := by
  have h1 := h .stretch1
  have h2 := h .stretch2
  have h3 := h .sticky1
  have h4 := h .jump1
  have h5 := h .jump2
  have h6 := h .traction1
  simp only [evolutionTree] at h1 h2 h3 h4 h5 h6
  by_cases c10 : 10 ≤ s.points FoodTypeId.sap + a <;>
    by_cases c25 : 25 ≤ s.points FoodTypeId.sap + a <;>
    by_cases c50 : 50 ≤ s.points FoodTypeId.sap + a <;>
    by_cases d10 : 10 ≤ s.points FoodTypeId.sap <;>
    by_cases d25 : 25 ≤ s.points FoodTypeId.sap <;>
    by_cases d50 : 50 ≤ s.points FoodTypeId.sap <;>
    first
    | omega
    | simp [consume, checkEvolutions, ALL_NODE_IDS, List.foldl, List.filter, checkStep,
        prevActive, newlyUnlocked, evolutionTree, h1, h2, h3, h4, h5, h6,
        c10, c25, c50, d10, d25, d50]

/-- Notifications of any `consume` call. -/
theorem consume_notifs (s : FeedingState) (ft : FoodTypeId) (a : ℕ) (h : Canonical s) :
    (consume s ft a).2 = ALL_NODE_IDS.filter (newlyUnlocked s ft a) := by
  cases ft
  · exact consume_notifs_dust s a h
  · exact consume_notifs_sap s a h

/-- The initial feeding state is canonical. -/
theorem init_canonical : Canonical FeedingState.init := by
  intro n
  cases n <;> decide

/-- The state reached by any sequence of `consume` calls is canonical. -/
theorem runTrace_canonical (calls : List (FoodTypeId × ℕ)) : Canonical (runTrace calls) := by
  have aux : ∀ (l : List (FoodTypeId × ℕ)) (s : FeedingState), Canonical s →
      Canonical (l.foldl (fun s c => (consume s c.1 c.2).1) s) := by
    intro l
    induction l with
    | nil => intro s hs; exact hs
    | cons c t ih =>
        intro s hs
        exact ih _ (consume_canonical s c.1 c.2 hs)
  exact aux calls FeedingState.init init_canonical

/-- In a canonical state the active part of a branch chain is a `takeWhile`
(tier-ordered) initial segment cut at the pool total. -/
theorem canonical_chain_initial_segment (s : FeedingState) (h : Canonical s) (b : FoodTypeId) :
    (branchChain b).filter s.active
      = (branchChain b).takeWhile
          (fun n => decide ((evolutionTree n).threshold ≤ s.points b)) := by
  have h1 := h .stretch1
  have h2 := h .stretch2
  have h3 := h .sticky1
  have h4 := h .jump1
  have h5 := h .jump2
  have h6 := h .traction1
  simp only [evolutionTree] at h1 h2 h3 h4 h5 h6
  cases b
  · by_cases d10 : 10 ≤ s.points FoodTypeId.dust <;>
      by_cases d25 : 25 ≤ s.points FoodTypeId.dust <;>
      by_cases d50 : 50 ≤ s.points FoodTypeId.dust <;>
      first
      | omega
      | simp [branchChain, List.filter, List.takeWhile, evolutionTree,
          h1, h2, h3, d10, d25, d50]
  · by_cases d10 : 10 ≤ s.points FoodTypeId.sap <;>
      by_cases d25 : 25 ≤ s.points FoodTypeId.sap <;>
      by_cases d50 : 50 ≤ s.points FoodTypeId.sap <;>
      first
      | omega
      | simp [branchChain, List.filter, List.takeWhile, evolutionTree,
          h4, h5, h6, d10, d25, d50]

end PhyloClimb

namespace PhyloClimb

/-- C1: For every sequence of `consume(resourceType, amount)` calls with
positive amounts, after each call the unlocked-node set of that resource
type's branch is exactly the tier-ordered initial segment of its chain cut at
the accumulated pool total (a node unlocks exactly on the call whose total
reaches its threshold), and the notifications of a further call are exactly
the newly unlocked nodes, one each, in ascending tier order. -/
theorem consume_unlocks_tier_ordered_chain
    (calls : List (FoodTypeId × ℕ)) (hpos : ∀ c ∈ calls, 1 ≤ c.2)
    (b ft : FoodTypeId) (a : ℕ) (ha : 1 ≤ a) :
    ((branchChain b).filter (runTrace calls).active
      = (branchChain b).takeWhile
          (fun n => decide ((evolutionTree n).threshold ≤ (runTrace calls).points b)))
    ∧ (∀ n, (runTrace calls).active n = true ↔
          (evolutionTree n).threshold ≤ (runTrace calls).points (evolutionTree n).branch)
    ∧ (consume (runTrace calls) ft a).2
        = ALL_NODE_IDS.filter (newlyUnlocked (runTrace calls) ft a) := by
  have hc := runTrace_canonical calls
  refine ⟨canonical_chain_initial_segment _ hc b, fun n => ?_, consume_notifs _ ft a hc⟩
  rw [hc n]
  simp

/-- Witness for C1 at the concrete trace 9-then-1 dust (pool reaches the
tier-1 threshold exactly on the second call) followed by a 15-point call. -/
theorem consume_unlocks_tier_ordered_chain_witness :
    (∀ c ∈ [((FoodTypeId.dust : FoodTypeId), 9), (FoodTypeId.dust, 1)], 1 ≤ c.2)
    ∧ (1 ≤ 15)
    ∧ (((branchChain .dust).filter (runTrace [(.dust, 9), (.dust, 1)]).active
        = (branchChain .dust).takeWhile
            (fun n => decide ((evolutionTree n).threshold
                ≤ (runTrace [(.dust, 9), (.dust, 1)]).points .dust)))
      ∧ (∀ n, (runTrace [(.dust, 9), (.dust, 1)]).active n = true ↔
            (evolutionTree n).threshold
              ≤ (runTrace [(.dust, 9), (.dust, 1)]).points (evolutionTree n).branch)
      ∧ (consume (runTrace [(.dust, 9), (.dust, 1)]) .dust 15).2
          = ALL_NODE_IDS.filter (newlyUnlocked (runTrace [(.dust, 9), (.dust, 1)]) .dust 15)) :=
  ⟨by decide, by decide,
    consume_unlocks_tier_ordered_chain [(.dust, 9), (.dust, 1)] (by decide) .dust .dust 15
      (by decide)⟩

end PhyloClimb

namespace PhyloClimb

/- ===================== Grapple controller (src/scenes/GameScene.ts) ========= -/

/-- A hook point as seen by `findBestHook`.  `x`/`y` are its world
coordinates; `dist` and `angleDiff` are the two geometric quantities the loop
computes for it via the physics library (`Phaser.Math.Distance.Between` and
the normalised `atan2` difference, which always lands in `[0, π]`). -/
structure Hook where
  x : ℚ
  y : ℚ
  dist : ℚ
  angleDiff : ℚ
deriving DecidableEq, Repr

/-- The selection score of `findBestHook`: `angleDiff * 200 + dist * 0.5`. -/
def hookScore (h : Hook) : ℚ := h.angleDiff * 200 + h.dist * (1 / 2)

/-- A hook survives both `continue` guards of the loop: it is within the
current grapple range and within the aim cone. -/
def hookQualifies (range cone : ℚ) (h : Hook) : Bool :=
  !decide (range < h.dist) && !decide (cone < h.angleDiff)

/-- `GameScene.findBestHook`: returns `null` when the grapple is not
unlocked; otherwise scans all hook points, skipping those out of range or
outside the aim cone, and keeps the hook with the strictly smallest score
(so the first-found hook wins ties). -/
def findBestHook (canGrapple : Bool) (range cone : ℚ) (hooks : List Hook) : Option Hook :=
  if canGrapple = false then none
  else
    hooks.foldl
      (fun best h =>
        if range < h.dist then best
        else if cone < h.angleDiff then best
        else
          match best with
          | none => some h
          | some b => if hookScore h < hookScore b then some h else some b)
      none

/-- The live grapple constraint: attached body, fixed world anchor, length. -/
structure GrappleConstraint where
  bodyA : ℕ
  anchorX : ℚ
  anchorY : ℚ
  length : ℚ
deriving DecidableEq, Repr

inductive GrappleMode
  | idle | attached
deriving DecidableEq, Repr

/-- The grapple-related state of `GameScene`: mode, rope length, current
target, the tracked constraint object, the number of live grapple
constraints in the physics world, and the player body id. -/
structure GrappleSt where
  mode : GrappleMode
  ropeLength : ℚ
  target : Option Hook
  constraint : Option GrappleConstraint
  worldConstraints : ℕ
  playerBody : ℕ
deriving DecidableEq, Repr

/-- `GameScene.attachGrapple`: set rope length to the current distance, set
the target, switch to attached, create a constraint on the player body at the
hook's fixed point, and add it to the physics world. -/
def attachGrapple (st : GrappleSt) (h : Hook) : GrappleSt :=
  { st with
      ropeLength := h.dist
      target := some h
      mode := .attached
      constraint := some ⟨st.playerBody, h.x, h.y, h.dist⟩
      worldConstraints := st.worldConstraints + 1 }

/-- `GameScene.fireGrapple`: attach to the best hook if one qualifies,
otherwise do nothing.  (The method itself does not inspect the grapple
mode.) -/
def fireGrapple (canGrapple : Bool) (range cone : ℚ) (st : GrappleSt) (hooks : List Hook) :
    GrappleSt :=
  match findBestHook canGrapple range cone hooks with
  | some h => attachGrapple st h
  | none => st

/-- `GameScene.releaseGrapple`: remove the constraint from the world if one
is tracked, then clear target and return to idle. -/
def releaseGrapple (st : GrappleSt) : GrappleSt :=
  match st.constraint with
  | some _ =>
      { st with
          constraint := none
          worldConstraints := st.worldConstraints - 1
          target := none
          mode := .idle }
  | none => { st with target := none, mode := .idle }

/-- The pointer-down dispatch of `GameScene.setupInput` for a left click:
release when attached, otherwise fire at the clicked world point. -/
def leftClickGrapple (canGrapple : Bool) (range cone : ℚ) (st : GrappleSt)
    (hooks : List Hook) : GrappleSt :=
  if st.mode = .attached then releaseGrapple st
  else fireGrapple canGrapple range cone st hooks

/-- `GameScene.reelIn`: no-op without a constraint; otherwise shorten the
rope, clamped below at `MIN_ROPE_LENGTH`, and write the new length into the
live constraint. -/
def reelIn (amount : ℚ) (st : GrappleSt) : GrappleSt :=
  match st.constraint with
  | none => st
  | some c =>
      { st with
          ropeLength := max MIN_ROPE_LENGTH (st.ropeLength - amount)
          constraint := some { c with length := max MIN_ROPE_LENGTH (st.ropeLength - amount) } }

/-- `GameScene.reelOut`: no-op without a constraint; otherwise lengthen the
rope, clamped above at the current grapple range, and write the new length
into the live constraint. -/
def reelOut (range amount : ℚ) (st : GrappleSt) : GrappleSt :=
  match st.constraint with
  | none => st
  | some c =>
      { st with
          ropeLength := min range (st.ropeLength + amount)
          constraint := some { c with length := min range (st.ropeLength + amount) } }

end PhyloClimb

namespace PhyloClimb

/-- The loop of `findBestHook` is the first-found strict minimiser of the
score over the qualifying hooks, i.e. `List.argmin` of the filtered list. -/
theorem findBestHook_eq_argmin (range cone : ℚ) (hooks : List Hook) :
    findBestHook true range cone hooks
      = (hooks.filter (hookQualifies range cone)).argmin hookScore := by
  have aux : ∀ (l : List Hook) (acc : Option Hook),
      l.foldl
        (fun best h =>
          if range < h.dist then best
          else if cone < h.angleDiff then best
          else
            match best with
            | none => some h
            | some b => if hookScore h < hookScore b then some h else some b)
        acc
      = (l.filter (hookQualifies range cone)).foldl
          (List.argAux fun b c => hookScore b < hookScore c) acc := by
    intro l
    induction l with
    | nil => intro acc; rfl
    | cons h t ih =>
        intro acc
        by_cases h1 : range < h.dist
        · have hq : hookQualifies range cone h = false := by simp [hookQualifies, h1]
          rw [List.foldl_cons, if_pos h1, ih]
          simp [List.filter_cons, hq]
        · by_cases h2 : cone < h.angleDiff
          · have hq : hookQualifies range cone h = false := by simp [hookQualifies, h1, h2]
            rw [List.foldl_cons, if_neg h1, if_pos h2, ih]
            simp [List.filter_cons, hq]
          · have hq : hookQualifies range cone h = true := by simp [hookQualifies, h1, h2]
            rw [List.foldl_cons, if_neg h1, if_neg h2, ih]
            have hfc : (h :: t).filter (hookQualifies range cone)
                = h :: t.filter (hookQualifies range cone) := by
              simp [List.filter_cons, hq]
            rw [hfc, List.foldl_cons]
            congr 1
            cases acc <;> simp [List.argAux]
  simp only [findBestHook, List.argmin]
  simp [aux]

/-- C2: with the grapple unlocked and the controller idle, firing at an aim
point considers exactly the hooks within range and within the aim cone;
if none qualifies the state is unchanged; otherwise it attaches to the
qualifying hook minimising `angleDiff*200 + dist*0.5`, and on score ties the
one occurring first wins. -/
theorem fireGrapple_selects_best_hook (range cone : ℚ) (st : GrappleSt)
    (hooks : List Hook) (hidle : st.mode = .idle) :
    (∀ h', hookQualifies range cone h' = true ↔ (h'.dist ≤ range ∧ h'.angleDiff ≤ cone))
    ∧ (hooks.filter (hookQualifies range cone) = [] →
        fireGrapple true range cone st hooks = st)
    ∧ (findBestHook true range cone hooks = none →
        hooks.filter (hookQualifies range cone) = [])
    ∧ (∀ h, findBestHook true range cone hooks = some h →
        h ∈ hooks ∧ h.dist ≤ range ∧ h.angleDiff ≤ cone
        ∧ (∀ h' ∈ hooks, hookQualifies range cone h' = true → hookScore h ≤ hookScore h')
        ∧ (∀ h' ∈ hooks.filter (hookQualifies range cone), hookScore h' ≤ hookScore h →
            (hooks.filter (hookQualifies range cone)).indexOf h
              ≤ (hooks.filter (hookQualifies range cone)).indexOf h')
        ∧ fireGrapple true range cone st hooks = attachGrapple st h) := by
  refine ⟨?_, ?_, ?_, ?_⟩
  · intro h'
    simp [hookQualifies, not_lt]
  · intro hemp
    rw [fireGrapple, findBestHook_eq_argmin, hemp]
    simp
  · intro hnone
    rw [findBestHook_eq_argmin] at hnone
    exact List.argmin_eq_none.mp hnone
  · intro h hsome
    rw [findBestHook_eq_argmin] at hsome
    have hmem : h ∈ (hooks.filter (hookQualifies range cone)).argmin hookScore := hsome
    have hin : h ∈ hooks.filter (hookQualifies range cone) := List.argmin_mem hmem
    have hin' : h ∈ hooks := (List.mem_filter.mp hin).1
    have hq : hookQualifies range cone h = true := (List.mem_filter.mp hin).2
    have hq' : h.dist ≤ range ∧ h.angleDiff ≤ cone := by
      simpa [hookQualifies, not_lt] using hq
    refine ⟨hin', hq'.1, hq'.2, ?_, ?_, ?_⟩
    · intro h' hh' hq''
      exact List.le_of_mem_argmin (List.mem_filter.mpr ⟨hh', hq''⟩) hmem
    · intro h' hh' hsc
      exact List.index_of_argmin hmem hh' hsc
    · rw [fireGrapple, findBestHook_eq_argmin, hsome]

/-- Witness for C2: one in-range aligned hook beats a farther one, and an
out-of-range list yields no transition. -/
theorem fireGrapple_selects_best_hook_witness :
    ((⟨.idle, 0, none, none, 0, 1⟩ : GrappleSt).mode = .idle)
    ∧ (([⟨0, 0, 500, 0⟩] : List Hook).filter (hookQualifies 400 1) = [] →
        fireGrapple true 400 1 ⟨.idle, 0, none, none, 0, 1⟩ [⟨0, 0, 500, 0⟩]
          = ⟨.idle, 0, none, none, 0, 1⟩) := by
  refine ⟨rfl, ?_⟩
  exact (fireGrapple_selects_best_hook 400 1 ⟨.idle, 0, none, none, 0, 1⟩
    [⟨0, 0, 500, 0⟩] rfl).2.1

end PhyloClimb

namespace PhyloClimb

/-- A concrete attached grapple state: rope 100, one live constraint, target
anchored at (500, 300). -/
def stAttachedEx : GrappleSt :=
  ⟨.attached, 100, some ⟨500, 300, 100, 0⟩, some ⟨1, 500, 300, 100⟩, 1, 1⟩

/-- A second qualifying hook at distance 150, aligned with the aim ray. -/
def hookFar : Hook := ⟨200, 200, 150, 0⟩

/-- C3 counterexample: invoking the fire operation while already attached is
not a no-op — with a qualifying hook available it re-attaches, changing the
anchor and rope length and adding a second live constraint. -/
theorem fire_while_attached_not_noop :
    stAttachedEx.mode = .attached
    ∧ fireGrapple true 400 1 stAttachedEx [hookFar] ≠ stAttachedEx
    ∧ (fireGrapple true 400 1 stAttachedEx [hookFar]).worldConstraints = 2
    ∧ (fireGrapple true 400 1 stAttachedEx [hookFar]).target = some hookFar
    ∧ (fireGrapple true 400 1 stAttachedEx [hookFar]).ropeLength = 150 := by
  decide

/-- C3 (amended): releasing while idle (no tracked constraint, no target) is
a silent no-op, and the fire-grapple input is never delivered to the fire
operation while attached — the pointer handler routes a left click while
attached to release instead. -/
theorem invalid_grapple_transitions (st st' : GrappleSt) (hooks : List Hook)
    (cg : Bool) (range cone : ℚ)
    (hidle : st.mode = .idle) (hc : st.constraint = none) (ht : st.target = none)
    (hatt : st'.mode = .attached) :
    releaseGrapple st = st
    ∧ leftClickGrapple cg range cone st' hooks = releaseGrapple st' := by
  constructor
  · cases st
    simp only at hidle hc ht
    subst hidle hc ht
    simp [releaseGrapple]
  · simp [leftClickGrapple, hatt]

/-- Witness for C3 (amended) at a concrete idle state and a concrete
attached state. -/
theorem invalid_grapple_transitions_witness :
    releaseGrapple ⟨.idle, 0, none, none, 0, 1⟩ = ⟨.idle, 0, none, none, 0, 1⟩
    ∧ leftClickGrapple true 400 1 stAttachedEx [hookFar] = releaseGrapple stAttachedEx :=
  invalid_grapple_transitions ⟨.idle, 0, none, none, 0, 1⟩ stAttachedEx [hookFar]
    true 400 1 rfl rfl rfl rfl

/- ===================== C4: reel clamping ===================== -/

inductive ReelOp
  | inward (amount : ℚ)
  | outward (amount : ℚ)
deriving DecidableEq, Repr

def opAmount : ReelOp → ℚ
  | .inward a => a
  | .outward a => a

/-- One reel operation (`reelIn` / `reelOut`) with the current grapple
range. -/
def applyReel (range : ℚ) (st : GrappleSt) : ReelOp → GrappleSt
  | .inward a => reelIn a st
  | .outward a => reelOut range a st

/-- A sequence of reel operations. -/
def runReels (range : ℚ) (st : GrappleSt) (ops : List ReelOp) : GrappleSt :=
  ops.foldl (applyReel range) st

/-- An attached state whose rope is shorter than `MIN_ROPE_LENGTH` — reachable
because `attachGrapple` sets the rope to the player–hook distance, which
`findBestHook` bounds only from above. -/
def stShortRope : GrappleSt :=
  ⟨.attached, 5, some ⟨0, 0, 5, 0⟩, some ⟨1, 0, 0, 5⟩, 1, 1⟩

/-- C4 counterexample: from an attached grapple with rope 5, a single
reel-out of a positive amount leaves the rope at 6, strictly below
`MIN_ROPE_LENGTH`, so the claimed interval `[minRopeLength, range]` is
violated even though the range (400) and amount (1 ≥ 0) are ordinary. -/
theorem reel_below_min_counterexample :
    stShortRope.mode = .attached
    ∧ MIN_ROPE_LENGTH ≤ 400
    ∧ 0 ≤ opAmount (ReelOp.outward 1)
    ∧ (runReels 400 stShortRope [ReelOp.outward 1]).ropeLength = 6
    ∧ ¬ MIN_ROPE_LENGTH ≤ (runReels 400 stShortRope [ReelOp.outward 1]).ropeLength := by
  refine ⟨rfl, by norm_num [MIN_ROPE_LENGTH], by norm_num [opAmount], ?_, ?_⟩ <;>
    norm_num [runReels, applyReel, reelOut, stShortRope, MIN_ROPE_LENGTH]

/-- C4 (amended): provided the rope starts no shorter than
`MIN_ROPE_LENGTH` (and no longer than the current range, as `attachGrapple`
guarantees), every sequence of reel-in/reel-out operations with nonnegative
amounts keeps the rope length within `[MIN_ROPE_LENGTH, range]` and keeps the
live constraint's length equal to the rope length. -/
theorem reel_clamped (range : ℚ) (st : GrappleSt) (ops : List ReelOp) (c : GrappleConstraint)
    (hrange : MIN_ROPE_LENGTH ≤ range)
    (hc : st.constraint = some c) (hsync : c.length = st.ropeLength)
    (hlo : MIN_ROPE_LENGTH ≤ st.ropeLength) (hhi : st.ropeLength ≤ range)
    (hamt : ∀ op ∈ ops, 0 ≤ opAmount op) :
    MIN_ROPE_LENGTH ≤ (runReels range st ops).ropeLength
    ∧ (runReels range st ops).ropeLength ≤ range
    ∧ ∃ c', (runReels range st ops).constraint = some c'
        ∧ c'.length = (runReels range st ops).ropeLength := by
  induction ops generalizing st c with
  | nil => exact ⟨hlo, hhi, c, hc, hsync⟩
  | cons op t ih =>
      have hop : 0 ≤ opAmount op := hamt op (by simp)
      have hamt' : ∀ op ∈ t, 0 ≤ opAmount op := fun o ho => hamt o (by simp [ho])
      cases op with
      | inward a =>
          simp only [opAmount] at hop
          refine ih (reelIn a st) { c with length := max MIN_ROPE_LENGTH (st.ropeLength - a) }
            ?_ ?_ ?_ ?_ hamt'
          · simp [reelIn, hc]
          · simp [reelIn, hc]
          · simp [reelIn, hc, le_max_left]
          · simp only [reelIn, hc]
            exact max_le hrange (by linarith)
      | outward a =>
          simp only [opAmount] at hop
          refine ih (reelOut range a st) { c with length := min range (st.ropeLength + a) }
            ?_ ?_ ?_ ?_ hamt'
          · simp [reelOut, hc]
          · simp [reelOut, hc]
          · simp only [reelOut, hc]
            exact le_min hrange (by linarith)
          · simp [reelOut, hc, min_le_left]

/-- Witness for C4 (amended) at a concrete attached state (rope 100, range
400) and the concrete operation list [reel-in 60, reel-out 500]. -/
theorem reel_clamped_witness :
    (MIN_ROPE_LENGTH ≤ (400 : ℚ)
      ∧ (0:ℚ) ≤ 60 ∧ (0:ℚ) ≤ 500)
    ∧ (MIN_ROPE_LENGTH ≤ (runReels 400 stAttachedEx [ReelOp.inward 60, ReelOp.outward 500]).ropeLength
      ∧ (runReels 400 stAttachedEx [ReelOp.inward 60, ReelOp.outward 500]).ropeLength ≤ 400
      ∧ ∃ c', (runReels 400 stAttachedEx [ReelOp.inward 60, ReelOp.outward 500]).constraint = some c'
          ∧ c'.length = (runReels 400 stAttachedEx [ReelOp.inward 60, ReelOp.outward 500]).ropeLength) :=
  ⟨⟨by norm_num [MIN_ROPE_LENGTH], by norm_num, by norm_num⟩,
    reel_clamped 400 stAttachedEx [ReelOp.inward 60, ReelOp.outward 500] ⟨1, 500, 300, 100⟩
      (by norm_num [MIN_ROPE_LENGTH]) rfl rfl (by norm_num [stAttachedEx, MIN_ROPE_LENGTH])
      (by norm_num [stAttachedEx])
      (by intro o ho; fin_cases ho <;> norm_num [opAmount])⟩

end PhyloClimb

namespace PhyloClimb

/- ===================== C5: ground-contact tracking ===================== -/

inductive BodyLabel
  | platform | breakable | wall | recovery | food | goal | deathzone
deriving DecidableEq, Repr

/-- The labels whose contacts feed the ground counter in
`GameScene.setupCollisions` (`'platform' || 'breakable'`). -/
def isGroundSurface : BodyLabel → Bool
  | .platform => true
  | .breakable => true
  | _ => false

inductive ContactEvent
  | cbegin (label : BodyLabel) (playerY otherY : ℚ)
  | cend (label : BodyLabel)
deriving DecidableEq, Repr

/-- One `collisionstart`/`collisionend` pair handler iteration of
`GameScene.setupCollisions`: on begin with a ground label, increment only if
the player's y is numerically less than the surface's y; on end with a
ground label, decrement floored at 0. -/
def groundContactStep (count : ℤ) : ContactEvent → ℤ
  | .cbegin l py oy =>
      if isGroundSurface l then (if py < oy then count + 1 else count) else count
  | .cend l =>
      if isGroundSurface l then max 0 (count - 1) else count

/-- Fold a whole contact-event history from the scene-start counter 0. -/
def runContacts (events : List ContactEvent) : ℤ :=
  events.foldl groundContactStep 0

/-- Folding the counter from any nonnegative start stays nonnegative. -/
theorem groundContacts_fold_nonneg (events : List ContactEvent) (c : ℤ) (hc : 0 ≤ c) :
    0 ≤ events.foldl groundContactStep c := by
  induction events generalizing c with
  | nil => exact hc
  | cons e t ih =>
      refine ih _ ?_
      cases e with
      | cbegin l py oy =>
          simp only [groundContactStep]
          split <;> [skip; exact hc]
          split <;> omega
      | cend l =>
          simp only [groundContactStep]
          split <;> [exact le_max_left 0 _; exact hc]

/-- C5: the ground-contact counter is incremented on a platform/breakable
contact-begin only when the player is numerically above the surface,
decremented with a floor of 0 on contact-end, and never becomes negative
under any event history — including unmatched or duplicated end events. -/
theorem ground_contacts_never_negative (events : List ContactEvent) (c : ℤ)
    (pyA oyA pyS oyS : ℚ) (hc : 0 ≤ c) (habove : pyA < oyA) (hside : ¬ pyS < oyS) :
    0 ≤ runContacts events
    ∧ 0 ≤ events.foldl groundContactStep c
    ∧ groundContactStep c (.cbegin .platform pyA oyA) = c + 1
    ∧ groundContactStep c (.cbegin .breakable pyA oyA) = c + 1
    ∧ groundContactStep c (.cbegin .platform pyS oyS) = c
    ∧ groundContactStep c (.cbegin .wall pyA oyA) = c
    ∧ groundContactStep c (.cend .platform) = max 0 (c - 1)
    ∧ groundContactStep c (.cend .breakable) = max 0 (c - 1) := by
  refine ⟨groundContacts_fold_nonneg events 0 le_rfl,
    groundContacts_fold_nonneg events c hc, ?_, ?_, ?_, ?_, ?_, ?_⟩ <;>
    simp [groundContactStep, isGroundSurface, habove, hside]

/-- Witness for C5 at the concrete history: two spurious end events, one
side contact-begin, one genuine landing. -/
theorem ground_contacts_never_negative_witness :
    ((0:ℤ) ≤ 0 ∧ (0:ℚ) < 1 ∧ ¬ (1:ℚ) < 0)
    ∧ 0 ≤ runContacts
        [.cend .platform, .cend .platform, .cbegin .platform 1 0,
         .cbegin .breakable 0 1, .cend .breakable, .cend .breakable]
    ∧ groundContactStep 0 (.cbegin .platform 0 1) = 1 :=
  ⟨⟨le_rfl, by norm_num, by norm_num⟩,
    (ground_contacts_never_negative
      [.cend .platform, .cend .platform, .cbegin .platform 1 0,
       .cbegin .breakable 0 1, .cend .breakable, .cend .breakable]
      0 0 1 1 0 le_rfl (by norm_num) (by norm_num)).1,
    (ground_contacts_never_negative [] 0 0 1 1 0 le_rfl (by norm_num) (by norm_num)).2.2.1⟩

end PhyloClimb

namespace PhyloClimb

/- ===================== C6: fall damage ===================== -/

/-- The three-band piecewise-linear damage curve of
`GameScene.applyFallDamage` (before the multiplier and rounding). -/
def fallDamageRaw (d : ℚ) : ℚ :=
  if d < FALL_THRESHOLD_MEDIUM then
    5 + (d - FALL_THRESHOLD_SMALL) / (FALL_THRESHOLD_MEDIUM - FALL_THRESHOLD_SMALL) * 5
  else if d < FALL_THRESHOLD_LARGE then
    10 + (d - FALL_THRESHOLD_MEDIUM) / (FALL_THRESHOLD_LARGE - FALL_THRESHOLD_MEDIUM) * 25
  else
    35 + min 1 ((d - FALL_THRESHOLD_LARGE) / 400) * 65

/-- JavaScript `Math.round` on the (nonnegative) quantities involved. -/
def jsRound (q : ℚ) : ℤ := ⌊q + 1 / 2⌋

/-- The integer damage of a landing with fall distance `d`:
`Math.round(curve * multiplier)` when `trackFalling`'s guard
`fallDistance > FALL_THRESHOLD_SMALL` fires, otherwise no damage. -/
def landingDamage (mult d : ℚ) : ℤ :=
  if FALL_THRESHOLD_SMALL < d then jsRound (fallDamageRaw d * mult) else 0

/-- The HP update of a landing: `playerHP = Math.max(0, playerHP - damage)`
inside `applyFallDamage`, guarded by `trackFalling`. -/
def applyLanding (mult : ℚ) (hp : ℤ) (d : ℚ) : ℤ :=
  if FALL_THRESHOLD_SMALL < d then max 0 (hp - jsRound (fallDamageRaw d * mult)) else hp

/-- The raw curve is at least 5 from the small threshold on. -/
theorem fallDamageRaw_lower (d : ℚ) (h : FALL_THRESHOLD_SMALL ≤ d) :
    5 ≤ fallDamageRaw d := by
  simp only [fallDamageRaw, FALL_THRESHOLD_SMALL, FALL_THRESHOLD_MEDIUM,
    FALL_THRESHOLD_LARGE] at *
  by_cases b1 : d < 300
  · rw [if_pos b1]
    have : 0 ≤ (d - 100) / (300 - 100) * 5 := by
      apply mul_nonneg _ (by norm_num)
      apply div_nonneg (by linarith) (by norm_num)
    linarith
  · rw [if_neg b1]
    by_cases b2 : d < 600
    · rw [if_pos b2]
      have : 0 ≤ (d - 300) / (600 - 300) * 25 := by
        apply mul_nonneg _ (by norm_num)
        apply div_nonneg (by linarith) (by norm_num)
      linarith
    · rw [if_neg b2]
      have h0 : 0 ≤ min 1 ((d - 600) / 400) := by
        apply le_min (by norm_num)
        apply div_nonneg (by linarith) (by norm_num)
      nlinarith

end PhyloClimb

namespace PhyloClimb

/-- The raw damage curve is monotone from the small threshold on. -/
theorem fallDamageRaw_mono (d₁ d₂ : ℚ) (h1 : FALL_THRESHOLD_SMALL ≤ d₁) (h12 : d₁ ≤ d₂) :
    fallDamageRaw d₁ ≤ fallDamageRaw d₂ := by
  simp only [fallDamageRaw, FALL_THRESHOLD_SMALL, FALL_THRESHOLD_MEDIUM,
    FALL_THRESHOLD_LARGE] at *
  by_cases a1 : d₁ < 300
  · rw [if_pos a1]
    by_cases a2 : d₂ < 300
    · rw [if_pos a2]
      linarith
    · rw [if_neg a2]
      have hb1 : 5 + (d₁ - 100) / (300 - 100) * 5 ≤ 10 := by linarith
      by_cases a3 : d₂ < 600
      · rw [if_pos a3]
        have : 0 ≤ (d₂ - 300) / (600 - 300) * 25 := by
          apply mul_nonneg _ (by norm_num)
          apply div_nonneg (by linarith) (by norm_num)
        linarith
      · rw [if_neg a3]
        have h0 : 0 ≤ min 1 ((d₂ - 600) / 400) := by
          apply le_min (by norm_num)
          apply div_nonneg (by linarith) (by norm_num)
        nlinarith
  · rw [if_neg a1]
    have a2 : ¬ d₂ < 300 := by linarith
    rw [if_neg a2]
    by_cases b1 : d₁ < 600
    · rw [if_pos b1]
      by_cases b2 : d₂ < 600
      · rw [if_pos b2]
        linarith
      · rw [if_neg b2]
        have hb1 : 10 + (d₁ - 300) / (600 - 300) * 25 ≤ 35 := by linarith
        have h0 : 0 ≤ min 1 ((d₂ - 600) / 400) := by
          apply le_min (by norm_num)
          apply div_nonneg (by linarith) (by norm_num)
        nlinarith
    · rw [if_neg b1]
      have b2 : ¬ d₂ < 600 := by linarith
      rw [if_neg b2]
      have hmm : min 1 ((d₁ - 600) / 400) ≤ min 1 ((d₂ - 600) / 400) :=
        min_le_min le_rfl (by linarith)
      nlinarith

/-- The damage actually applied is monotone in fall distance. -/
theorem landingDamage_mono (mult d₁ d₂ : ℚ) (hm : 0 ≤ mult) (h12 : d₁ ≤ d₂) :
    landingDamage mult d₁ ≤ landingDamage mult d₂ := by
  unfold landingDamage
  by_cases g1 : FALL_THRESHOLD_SMALL < d₁
  · rw [if_pos g1, if_pos (lt_of_lt_of_le g1 h12)]
    apply Int.floor_le_floor
    have hr := fallDamageRaw_mono d₁ d₂ (le_of_lt g1) h12
    have := mul_le_mul_of_nonneg_right hr hm
    linarith
  · rw [if_neg g1]
    by_cases g2 : FALL_THRESHOLD_SMALL < d₂
    · rw [if_pos g2]
      have hraw : 0 ≤ fallDamageRaw d₂ := by
        have := fallDamageRaw_lower d₂ (le_of_lt g2)
        linarith
      have hge : 0 ≤ fallDamageRaw d₂ * mult := mul_nonneg hraw hm
      unfold jsRound
      rw [Int.le_floor]
      push_cast
      linarith
    · rw [if_neg g2]

end PhyloClimb

namespace PhyloClimb

/-- C6: a fall of at most the small threshold (100) does no damage (boundary
exclusive); beyond it the damage follows the three-band piecewise-linear
curve — 5→10 over (small, medium), 10→35 over [medium, large), 35→100 beyond
large, plateauing at 100 from large+400 on — scaled by the Stats fall-damage
multiplier, rounded, and subtracted from HP with a floor of 0; the damage is
monotonically non-decreasing in the fall distance. -/
theorem fall_damage_spec (mult d d₁ d₂ : ℚ) (hp : ℤ)
    (hm : 0 ≤ mult) (hd : d ≤ FALL_THRESHOLD_SMALL) (h12 : d₁ ≤ d₂) :
    applyLanding mult hp d = hp
    ∧ landingDamage mult d = 0
    ∧ (∀ e, FALL_THRESHOLD_SMALL < e → e < FALL_THRESHOLD_MEDIUM →
        fallDamageRaw e = 5 + (e - 100) / 200 * 5
          ∧ 5 < fallDamageRaw e ∧ fallDamageRaw e < 10)
    ∧ (∀ e, FALL_THRESHOLD_MEDIUM ≤ e → e < FALL_THRESHOLD_LARGE →
        fallDamageRaw e = 10 + (e - 300) / 300 * 25
          ∧ 10 ≤ fallDamageRaw e ∧ fallDamageRaw e < 35)
    ∧ (∀ e, FALL_THRESHOLD_LARGE ≤ e →
        fallDamageRaw e = 35 + min 1 ((e - 600) / 400) * 65
          ∧ 35 ≤ fallDamageRaw e ∧ fallDamageRaw e ≤ 100)
    ∧ (∀ e, FALL_THRESHOLD_LARGE + 400 ≤ e → fallDamageRaw e = 100)
    ∧ landingDamage mult d₁ ≤ landingDamage mult d₂
    ∧ (FALL_THRESHOLD_SMALL < d₂ →
        applyLanding mult hp d₂ = max 0 (hp - jsRound (fallDamageRaw d₂ * mult)))
    ∧ (0 ≤ hp → 0 ≤ applyLanding mult hp d₂) := by
  refine ⟨?_, ?_, ?_, ?_, ?_, ?_, landingDamage_mono mult d₁ d₂ hm h12, ?_, ?_⟩
  · rw [applyLanding, if_neg (by simp only [not_lt]; exact hd)]
  · rw [landingDamage, if_neg (by simp only [not_lt]; exact hd)]
  · intro e he1 he2
    simp only [FALL_THRESHOLD_SMALL, FALL_THRESHOLD_MEDIUM] at he1 he2
    have hb : fallDamageRaw e = 5 + (e - 100) / 200 * 5 := by
      rw [fallDamageRaw, if_pos (by simp only [FALL_THRESHOLD_MEDIUM]; exact he2)]
      norm_num [FALL_THRESHOLD_SMALL, FALL_THRESHOLD_MEDIUM]
    refine ⟨hb, ?_, ?_⟩ <;> rw [hb] <;> linarith
  · intro e he1 he2
    simp only [FALL_THRESHOLD_MEDIUM, FALL_THRESHOLD_LARGE] at he1 he2
    have hb : fallDamageRaw e = 10 + (e - 300) / 300 * 25 := by
      rw [fallDamageRaw, if_neg (by simp only [FALL_THRESHOLD_MEDIUM]; linarith),
        if_pos (by simp only [FALL_THRESHOLD_LARGE]; exact he2)]
      norm_num [FALL_THRESHOLD_MEDIUM, FALL_THRESHOLD_LARGE]
    refine ⟨hb, ?_, ?_⟩ <;> rw [hb] <;> linarith
  · intro e he1
    simp only [FALL_THRESHOLD_LARGE] at he1
    have hb : fallDamageRaw e = 35 + min 1 ((e - 600) / 400) * 65 := by
      rw [fallDamageRaw, if_neg (by simp only [FALL_THRESHOLD_MEDIUM]; linarith),
        if_neg (by simp only [FALL_THRESHOLD_LARGE]; linarith)]
      norm_num [FALL_THRESHOLD_LARGE]
    refine ⟨hb, ?_, ?_⟩ <;> rw [hb]
    · have h0 : 0 ≤ min 1 ((e - 600) / 400) := by
        apply le_min (by norm_num)
        apply div_nonneg (by linarith) (by norm_num)
      nlinarith
    · have hle : min 1 ((e - 600) / 400) ≤ 1 := min_le_left _ _
      nlinarith
  · intro e he1
    simp only [FALL_THRESHOLD_LARGE] at he1
    rw [fallDamageRaw, if_neg (by simp only [FALL_THRESHOLD_MEDIUM]; linarith),
      if_neg (by simp only [FALL_THRESHOLD_LARGE]; linarith)]
    simp only [FALL_THRESHOLD_LARGE]
    have hone : min 1 ((e - 600) / 400) = 1 := by
      apply min_eq_left
      rw [le_div_iff₀ (by norm_num : (0:ℚ) < 400)]
      linarith
    rw [hone]
    norm_num
  · intro hlt
    rw [applyLanding, if_pos hlt]
  · intro hhp
    rw [applyLanding]
    split
    · exact le_max_left 0 _
    · exact hhp

/-- Witness for C6 at multiplier 1, boundary fall 100, and the monotone pair
350 ≤ 450 with HP 100. -/
theorem fall_damage_spec_witness :
    ((0:ℚ) ≤ 1 ∧ (100:ℚ) ≤ FALL_THRESHOLD_SMALL ∧ (350:ℚ) ≤ 450)
    ∧ applyLanding 1 100 100 = 100
    ∧ landingDamage 1 350 ≤ landingDamage 1 450
    ∧ (0 ≤ (100:ℤ) → 0 ≤ applyLanding 1 100 450) :=
  ⟨⟨by norm_num, by norm_num [FALL_THRESHOLD_SMALL], by norm_num⟩,
    (fall_damage_spec 1 100 350 450 100 (by norm_num)
      (by norm_num [FALL_THRESHOLD_SMALL]) (by norm_num)).1,
    (fall_damage_spec 1 100 350 450 100 (by norm_num)
      (by norm_num [FALL_THRESHOLD_SMALL]) (by norm_num)).2.2.2.2.2.2.1,
    (fall_damage_spec 1 100 350 450 100 (by norm_num)
      (by norm_num [FALL_THRESHOLD_SMALL]) (by norm_num)).2.2.2.2.2.2.2.2⟩

end PhyloClimb

namespace PhyloClimb

/- ===================== C8: applyStretchEvolution ===================== -/

/-- The scene state touched by `GameScene.applyStretchEvolution`: the grapple
state plus the cached stretch factor. -/
structure StretchSt where
  grapple : GrappleSt
  currentStretchFactor : ℚ
deriving DecidableEq, Repr

/-- `GameScene.applyStretchEvolution`: early-out when the stretch factor is
unchanged; otherwise swap the physics body (fresh id `newBodyId`) and, when
attached with a target, remove the tracked constraint (guarded) and create a
fresh one on the new body at the same anchor with the unchanged rope length.
The second component records the number of live grapple constraints at each
sequence point of the operation. -/
def applyStretchEvolution (newStretch : ℚ) (newBodyId : ℕ) (s : StretchSt) :
    StretchSt × List ℕ :=
  if newStretch = s.currentStretchFactor then (s, [s.grapple.worldConstraints])
  else
    let g0 : GrappleSt := { s.grapple with playerBody := newBodyId }
    match g0.mode, g0.target with
    | .attached, some h =>
        let g1 : GrappleSt :=
          match g0.constraint with
          | some _ =>
              { g0 with constraint := none, worldConstraints := g0.worldConstraints - 1 }
          | none => g0
        let g2 : GrappleSt :=
          { g1 with
              constraint := some ⟨newBodyId, h.x, h.y, g1.ropeLength⟩
              worldConstraints := g1.worldConstraints + 1 }
        (⟨g2, newStretch⟩,
          [s.grapple.worldConstraints, g1.worldConstraints, g2.worldConstraints])
    | _, _ => (⟨g0, newStretch⟩, [s.grapple.worldConstraints])

/-- C8: a body-shape-changing evolution applied while attached destroys the
old constraint and creates one bound to the new body with the same anchor
and the unchanged rope length, and the number of live constraints never
exceeds one at any sequence point of the operation. -/
theorem stretch_reattach_preserves_anchor (s : StretchSt) (h : Hook) (c : GrappleConstraint)
    (newStretch : ℚ) (newBodyId : ℕ)
    (hmode : s.grapple.mode = .attached) (htar : s.grapple.target = some h)
    (hcon : s.grapple.constraint = some c) (hcount : s.grapple.worldConstraints = 1)
    (hne : newStretch ≠ s.currentStretchFactor) :
    (applyStretchEvolution newStretch newBodyId s).1.grapple.constraint
        = some ⟨newBodyId, h.x, h.y, s.grapple.ropeLength⟩
    ∧ (applyStretchEvolution newStretch newBodyId s).1.grapple.ropeLength
        = s.grapple.ropeLength
    ∧ (applyStretchEvolution newStretch newBodyId s).1.grapple.target = some h
    ∧ (applyStretchEvolution newStretch newBodyId s).1.grapple.mode = .attached
    ∧ (applyStretchEvolution newStretch newBodyId s).1.grapple.worldConstraints = 1
    ∧ ∀ k ∈ (applyStretchEvolution newStretch newBodyId s).2, k ≤ 1 := by
  simp only [applyStretchEvolution, if_neg hne, hmode, htar, hcon, hcount]
  refine ⟨trivial, trivial, trivial, trivial, trivial, ?_⟩
  intro k hk
  simp only [List.mem_cons, List.not_mem_nil, or_false] at hk
  rcases hk with rfl | rfl | rfl <;> omega

/-- Witness for C8 at the concrete attached state `stAttachedEx` with a
stretch change from 1 to 1.5 and fresh body id 2. -/
theorem stretch_reattach_preserves_anchor_witness :
    (stAttachedEx.mode = .attached
      ∧ stAttachedEx.target = some ⟨500, 300, 100, 0⟩
      ∧ stAttachedEx.constraint = some ⟨1, 500, 300, 100⟩
      ∧ stAttachedEx.worldConstraints = 1
      ∧ ((3:ℚ)/2) ≠ 1)
    ∧ (applyStretchEvolution (3/2) 2 ⟨stAttachedEx, 1⟩).1.grapple.constraint
        = some ⟨2, 500, 300, 100⟩
    ∧ (∀ k ∈ (applyStretchEvolution (3/2) 2 ⟨stAttachedEx, 1⟩).2, k ≤ 1) :=
  ⟨⟨rfl, rfl, rfl, rfl, by norm_num⟩,
    (stretch_reattach_preserves_anchor ⟨stAttachedEx, 1⟩ ⟨500, 300, 100, 0⟩
      ⟨1, 500, 300, 100⟩ (3/2) 2 rfl rfl rfl rfl (by norm_num)).1,
    (stretch_reattach_preserves_anchor ⟨stAttachedEx, 1⟩ ⟨500, 300, 100, 0⟩
      ⟨1, 500, 300, 100⟩ (3/2) 2 rfl rfl rfl rfl (by norm_num)).2.2.2.2.2⟩

end PhyloClimb

namespace PhyloClimb

/- ===================== C7: evolution-set invariant ===================== -/

/-- Node identifiers of the richer tree variant, as referenced by
`src/systems/PlayerStats.ts` and `src/systems/EvolutionSystem.ts`
(`root`, `trunk`, `forelimb`, `shell`, `grip`, `sticky`, `tendon`). -/
inductive RichNodeId
  | root | trunk | forelimb | shell | grip | sticky | tendon
deriving DecidableEq, Repr

/-- Modelled from the spec: the data file of the richer tree variant is not
under `src/` (only its consumers `EvolutionSystem.getAvailable`, which reads
`node.parent`, and `PlayerStats`, which reads its effect fields, are).  Per
the spec's data model each node has at most one parent (forming a tree) and
an unlock threshold in points. -/
structure RichNode where
  parent : Option RichNodeId
  threshold : ℕ

/-- Modelled from the spec: a concrete tree shape for the richer variant —
`root` is the sole parentless node; every other node hangs off the tree; all
thresholds are positive, matching the spec's "unlock threshold (points)". -/
def richTree : RichNodeId → RichNode
  | .root => ⟨none, 10⟩
  | .trunk => ⟨some .root, 25⟩
  | .forelimb => ⟨some .root, 25⟩
  | .shell => ⟨some .trunk, 50⟩
  | .grip => ⟨some .forelimb, 50⟩
  | .sticky => ⟨some .trunk, 50⟩
  | .tendon => ⟨some .grip, 75⟩

def RICH_NODE_IDS : List RichNodeId :=
  [.root, .trunk, .forelimb, .shell, .grip, .sticky, .tendon]

/-- State of `src/systems/EvolutionSystem.ts`: the set of unlocked nodes
(membership function). -/
structure EvoState where
  unlocked : RichNodeId → Bool

def EvoState.initES : EvoState := ⟨fun _ => false⟩

/-- `EvolutionSystem.unlock`: unconditionally insert the node. -/
def EvoState.unlock (s : EvoState) (n : RichNodeId) : EvoState :=
  ⟨fun m => if m = n then true else s.unlocked m⟩

/-- `EvolutionSystem.getAvailable`: nodes not yet unlocked whose parent is
null or unlocked. -/
def getAvailable (s : EvoState) : List RichNodeId :=
  RICH_NODE_IDS.filter (fun n =>
    !s.unlocked n
      && (match (richTree n).parent with
          | none => true
          | some p => s.unlocked p))

/-- The states reachable through the player-choice unlock path: the run
starts empty, and `EvolutionSelectUI` only ever calls `unlock` on a card
drawn from `getAvailable` (the shuffle-and-truncate step only selects a
subset of it). -/
inductive ChoiceReachable : EvoState → Prop
  | init : ChoiceReachable EvoState.initES
  | step (s : EvoState) (n : RichNodeId) :
      ChoiceReachable s → n ∈ getAvailable s → ChoiceReachable (s.unlock n)

/-- `unlock` only grows the unlocked set. -/
theorem unlock_monotone (s : EvoState) (n m : RichNodeId) (h : s.unlocked m = true) :
    (s.unlock n).unlocked m = true := by
  simp only [EvoState.unlock]
  split <;> simp [h]

/-- On the player-choice path every unlocked node has its parent unlocked. -/
theorem choiceReachable_parent_closed (s : EvoState) (hs : ChoiceReachable s) :
    ∀ n, s.unlocked n = true →
      ∀ p, (richTree n).parent = some p → s.unlocked p = true := by
  induction hs with
  | init => intro n hn; simp [EvoState.initES] at hn
  | step s n hs hav ih =>
      intro m hm p hp
      by_cases hmn : m = n
      · subst hmn
        have hq := (List.mem_filter.mp hav).2
        rw [hp] at hq
        simp only [Bool.and_eq_true, Bool.not_eq_true'] at hq
        exact unlock_monotone s m p hq.2
      · have : s.unlocked m = true := by
          simp only [EvoState.unlock, if_neg hmn] at hm
          exact hm
        exact unlock_monotone s n p (ih m this p hp)

/-- C7 counterexample: the player-choice path inserts nodes without any
threshold check — from the empty state, `root` (threshold 10) is available
and `unlock` inserts it while the run has accumulated 0 resource points (the
choice-variant scene never credits points at all), so "accumulated points ≥
threshold at the moment of insertion" fails on that path. -/
theorem choice_unlock_ignores_threshold :
    RichNodeId.root ∈ getAvailable EvoState.initES
    ∧ (EvoState.initES.unlock .root).unlocked .root = true
    ∧ ¬ (richTree .root).threshold ≤ 0 := by
  decide

/-- C7 (amended): in every reachable state, every unlocked node's
prerequisite is also unlocked — on the automatic `FeedingSystem` path *and*
on the player-choice path — and on the `FeedingSystem` path a node is active
only when its branch's accumulated points have reached its threshold; the
player-choice path performs no threshold check. -/
theorem evolution_set_invariant (calls : List (FoodTypeId × ℕ)) (s : EvoState)
    (hs : ChoiceReachable s) :
    (∀ n, (runTrace calls).active n = true →
        (∀ m, (evolutionTree n).prev = some m → (runTrace calls).active m = true)
        ∧ (evolutionTree n).threshold ≤ (runTrace calls).points (evolutionTree n).branch)
    ∧ (∀ n, s.unlocked n = true →
        ∀ p, (richTree n).parent = some p → s.unlocked p = true) := by
  constructor
  · intro n hn
    have hc := runTrace_canonical calls
    have hn' : (evolutionTree n).threshold ≤ (runTrace calls).points (evolutionTree n).branch := by
      have := hc n
      rw [hn] at this
      exact of_decide_eq_true this.symm
    refine ⟨?_, hn'⟩
    intro m hm
    rw [hc m]
    cases n <;> simp [evolutionTree] at hm hn' <;> subst hm <;>
      simp only [evolutionTree, decide_eq_true_eq] <;> omega
  · exact choiceReachable_parent_closed s hs

/-- Witness for C7 (amended): the trace dust-30 and the reachable state
that unlocks `root` from the empty set. -/
theorem evolution_set_invariant_witness :
    ChoiceReachable (EvoState.initES.unlock .root)
    ∧ (∀ n, (runTrace [(.dust, 30)]).active n = true →
        (∀ m, (evolutionTree n).prev = some m → (runTrace [(.dust, 30)]).active m = true)
        ∧ (evolutionTree n).threshold ≤ (runTrace [(.dust, 30)]).points (evolutionTree n).branch)
    ∧ (∀ n, (EvoState.initES.unlock .root).unlocked n = true →
        ∀ p, (richTree n).parent = some p → (EvoState.initES.unlock .root).unlocked p = true) := by
  have hr : ChoiceReachable (EvoState.initES.unlock .root) :=
    ChoiceReachable.step _ _ ChoiceReachable.init (by decide)
  exact ⟨hr, evolution_set_invariant [(.dust, 30)] (EvoState.initES.unlock .root) hr⟩

end PhyloClimb

namespace PhyloClimb

/- ===================== C9: breakable platforms ===================== -/

inductive BState
  | solid | warning | collapsed | respawning
deriving DecidableEq, Repr

/-- One breakable platform of `BreakablePlatformManager`
(src/gimmicks/BreakablePlatform.ts, src/unnamed/part_004): its respawn flag,
state, state-entry timestamp and the player-presence flag. -/
structure Breakable where
  respawn : Bool
  state : BState
  stateTime : ℚ
  playerOnIt : Bool
deriving DecidableEq, Repr

/-- `BreakablePlatformManager.onPlayerContact`: only a platform still
`solid` reacts — it enters `warning` and stamps the time. -/
def onPlayerContact (now : ℚ) (p : Breakable) : Breakable :=
  if p.state = .solid then { p with playerOnIt := true, state := .warning, stateTime := now }
  else p

/-- `BreakablePlatformManager.onPlayerLeave`: clears the presence flag only;
the state machine is deliberately not touched ("Don't cancel warning"). -/
def onPlayerLeave (p : Breakable) : Breakable :=
  { p with playerOnIt := false }

/-- First block of `BreakablePlatformManager.update`: a warning platform
collapses once the collapse delay has elapsed. -/
def updWarnBlock (now : ℚ) (p : Breakable) : Breakable :=
  if p.state = .warning ∧ BREAKABLE_COLLAPSE_TIME ≤ now - p.stateTime then
    { p with state := .collapsed, stateTime := now }
  else p

/-- Second block: a collapsed respawnable platform starts respawning after
the respawn delay. -/
def updCollapsedBlock (now : ℚ) (p : Breakable) : Breakable :=
  if p.state = .collapsed ∧ p.respawn = true ∧ BREAKABLE_RESPAWN_TIME ≤ now - p.stateTime then
    { p with state := .respawning, stateTime := now }
  else p

/-- Third block: a respawning platform turns solid after the 500 ms fade. -/
def updRespawningBlock (now : ℚ) (p : Breakable) : Breakable :=
  if p.state = .respawning ∧ 500 ≤ now - p.stateTime then
    { p with state := .solid }
  else p

/-- One `BreakablePlatformManager.update` tick: the three sequential state
blocks of the source, in order. -/
def breakableUpdate (now : ℚ) (p : Breakable) : Breakable :=
  updRespawningBlock now (updCollapsedBlock now (updWarnBlock now p))

inductive BreakEvent
  | contact (t : ℚ)
  | leave (t : ℚ)
  | upd (t : ℚ)
deriving DecidableEq, Repr

def breakStep (p : Breakable) : BreakEvent → Breakable
  | .contact t => onPlayerContact t p
  | .leave _ => onPlayerLeave p
  | .upd t => breakableUpdate t p

/-- Every handler keeps the respawn flag. -/
theorem breakStep_respawn (p : Breakable) (e : BreakEvent) :
    (breakStep p e).respawn = p.respawn := by
  cases e <;>
    simp only [breakStep, onPlayerContact, onPlayerLeave, breakableUpdate,
      updWarnBlock, updCollapsedBlock, updRespawningBlock] <;>
    (try split) <;> (try split) <;> (try split) <;> rfl

/-- A non-respawnable collapsed platform stays collapsed under any single
event. -/
theorem collapsed_stays_collapsed_step (p : Breakable) (e : BreakEvent)
    (hr : p.respawn = false) (hs : p.state = .collapsed) :
    (breakStep p e).state = .collapsed := by
  cases e with
  | contact t => simp [breakStep, onPlayerContact, hs]
  | leave t => simp [breakStep, onPlayerLeave, hs]
  | upd t =>
      have e1 : updWarnBlock t p = p := by
        rw [updWarnBlock, if_neg]
        rintro ⟨h1, -⟩
        rw [hs] at h1
        cases h1
      have e2 : updCollapsedBlock t p = p := by
        rw [updCollapsedBlock, if_neg]
        rintro ⟨-, h2, -⟩
        rw [hr] at h2
        cases h2
      have e3 : updRespawningBlock t p = p := by
        rw [updRespawningBlock, if_neg]
        rintro ⟨h1, -⟩
        rw [hs] at h1
        cases h1
      simp only [breakStep, breakableUpdate, e1, e2, e3, hs]

/-- A non-respawnable collapsed platform stays collapsed under any event
sequence. -/
theorem collapsed_stays_collapsed (p : Breakable) (evs : List BreakEvent)
    (hr : p.respawn = false) (hs : p.state = .collapsed) :
    (evs.foldl breakStep p).state = .collapsed := by
  induction evs generalizing p with
  | nil => exact hs
  | cons e t ih =>
      exact ih _ ((breakStep_respawn p e).trans hr) (collapsed_stays_collapsed_step p e hr hs)

/-- Leaves, contacts and too-early updates do not change the state or the
timestamp of a platform in `warning`. -/
theorem warning_inert_step (p : Breakable) (e : BreakEvent)
    (hs : p.state = .warning)
    (hupd : ∀ t, e = .upd t → t - p.stateTime < BREAKABLE_COLLAPSE_TIME) :
    (breakStep p e).state = .warning ∧ (breakStep p e).stateTime = p.stateTime := by
  cases e with
  | contact t => simp [breakStep, onPlayerContact, hs]
  | leave t => simp [breakStep, onPlayerLeave, hs]
  | upd t =>
      have hlt := hupd t rfl
      have e1 : updWarnBlock t p = p := by
        rw [updWarnBlock, if_neg]
        rintro ⟨-, h2⟩
        linarith
      have e2 : updCollapsedBlock t p = p := by
        rw [updCollapsedBlock, if_neg]
        rintro ⟨h1, -⟩
        rw [hs] at h1
        cases h1
      have e3 : updRespawningBlock t p = p := by
        rw [updRespawningBlock, if_neg]
        rintro ⟨h1, -⟩
        rw [hs] at h1
        cases h1
      simp only [breakStep, breakableUpdate, e1, e2, e3, hs, and_self]

/-- Before the collapse deadline the platform remains in `warning` with the
original timestamp, whatever leaves/contacts happen. -/
theorem warning_until_deadline (p : Breakable) (evs : List BreakEvent)
    (hs : p.state = .warning)
    (hupd : ∀ t, BreakEvent.upd t ∈ evs → t - p.stateTime < BREAKABLE_COLLAPSE_TIME) :
    (evs.foldl breakStep p).state = .warning
    ∧ (evs.foldl breakStep p).stateTime = p.stateTime := by
  induction evs generalizing p with
  | nil => exact ⟨hs, rfl⟩
  | cons e t ih =>
      have h := warning_inert_step p e hs (fun u hu => hupd u (by rw [hu]; simp))
      have ht : ∀ u, BreakEvent.upd u ∈ t →
          u - (breakStep p e).stateTime < BREAKABLE_COLLAPSE_TIME := by
        intro u hu
        rw [h.2]
        exact hupd u (by simp [hu])
      have hmain := ih (breakStep p e) h.1 ht
      rw [h.2] at hmain
      exact hmain

end PhyloClimb

namespace PhyloClimb

/-- The whole event fold preserves the respawn flag. -/
theorem foldl_breakStep_respawn (evs : List BreakEvent) (p : Breakable) :
    (evs.foldl breakStep p).respawn = p.respawn := by
  induction evs generalizing p with
  | nil => rfl
  | cons e t ih => rw [List.foldl_cons, ih, breakStep_respawn]

/-- An update at or past the collapse deadline collapses a warning
platform. -/
theorem warning_update_collapses (p : Breakable) (t : ℚ)
    (hs : p.state = .warning) (hr : p.respawn = false)
    (ht : BREAKABLE_COLLAPSE_TIME ≤ t - p.stateTime) :
    (breakableUpdate t p).state = .collapsed := by
  have e1 : updWarnBlock t p = { p with state := .collapsed, stateTime := t } := by
    rw [updWarnBlock, if_pos ⟨hs, ht⟩]
  have e2 : updCollapsedBlock t ({ p with state := .collapsed, stateTime := t } : Breakable)
      = { p with state := .collapsed, stateTime := t } := by
    rw [updCollapsedBlock, if_neg]
    rintro ⟨-, h2, -⟩
    simp only at h2
    rw [hr] at h2
    cases h2
  have e3 : updRespawningBlock t ({ p with state := .collapsed, stateTime := t } : Breakable)
      = { p with state := .collapsed, stateTime := t } := by
    rw [updRespawningBlock, if_neg]
    rintro ⟨h1, -⟩
    simp only at h1
    cases h1
  rw [breakableUpdate, e1, e2, e3]

/-- C9: a player contact-begin on a solid breakable puts it into `warning`
stamped with the contact time; contact-end never changes state or schedule;
updates strictly before the collapse deadline keep it in `warning`; the
first update at or past the deadline collapses it regardless of intervening
leaves or contacts, and a non-respawnable platform then remains collapsed
under every further event. -/
theorem breakable_collapse_on_schedule (p : Breakable) (t₀ tu : ℚ)
    (evs1 evs2 : List BreakEvent)
    (hsolid : p.state = .solid) (hr : p.respawn = false)
    (hupd1 : ∀ u, BreakEvent.upd u ∈ evs1 → u - t₀ < BREAKABLE_COLLAPSE_TIME)
    (htu : BREAKABLE_COLLAPSE_TIME ≤ tu - t₀) :
    ((onPlayerContact t₀ p).state = .warning ∧ (onPlayerContact t₀ p).stateTime = t₀)
    ∧ (∀ q : Breakable, (onPlayerLeave q).state = q.state
        ∧ (onPlayerLeave q).stateTime = q.stateTime)
    ∧ (evs1.foldl breakStep (onPlayerContact t₀ p)).state = .warning
    ∧ ((evs1 ++ BreakEvent.upd tu :: evs2).foldl breakStep
        (onPlayerContact t₀ p)).state = .collapsed := by
  have hc : onPlayerContact t₀ p
      = { p with playerOnIt := true, state := .warning, stateTime := t₀ } := by
    rw [onPlayerContact, if_pos hsolid]
  have hw := warning_until_deadline (onPlayerContact t₀ p) evs1 (by rw [hc]) ?hupd
  case hupd =>
    intro u hu
    rw [hc]
    exact hupd1 u hu
  refine ⟨⟨by rw [hc], by rw [hc]⟩, fun q => ⟨rfl, rfl⟩, hw.1, ?_⟩
  rw [List.foldl_append, List.foldl_cons]
  have hrespawn : (evs1.foldl breakStep (onPlayerContact t₀ p)).respawn = false := by
    rw [foldl_breakStep_respawn, hc]
    exact hr
  have hcoll : (breakStep (evs1.foldl breakStep (onPlayerContact t₀ p))
      (BreakEvent.upd tu)).state = .collapsed := by
    have hst : (evs1.foldl breakStep (onPlayerContact t₀ p)).stateTime = t₀ := by
      rw [hw.2, hc]
    exact warning_update_collapses _ tu hw.1 hrespawn (by rw [hst]; exact htu)
  have hrespawn2 : (breakStep (evs1.foldl breakStep (onPlayerContact t₀ p))
      (BreakEvent.upd tu)).respawn = false := by
    rw [breakStep_respawn]
    exact hrespawn
  exact collapsed_stays_collapsed _ evs2 hrespawn2 hcoll

/-- Witness for C9: solid non-respawnable platform touched at time 0, left
at 100, polled early at 700, on schedule at 800, and polled long after. -/
theorem breakable_collapse_on_schedule_witness :
    ((⟨false, .solid, 0, false⟩ : Breakable).state = .solid
      ∧ (⟨false, .solid, 0, false⟩ : Breakable).respawn = false
      ∧ BREAKABLE_COLLAPSE_TIME ≤ (800 : ℚ) - 0)
    ∧ ([BreakEvent.leave 100, BreakEvent.upd 700].foldl breakStep
        (onPlayerContact 0 ⟨false, .solid, 0, false⟩)).state = .warning
    ∧ (([BreakEvent.leave 100, BreakEvent.upd 700]
          ++ BreakEvent.upd 800 :: [BreakEvent.leave 900, BreakEvent.upd 6000]).foldl breakStep
        (onPlayerContact 0 ⟨false, .solid, 0, false⟩)).state = .collapsed :=
  ⟨⟨rfl, rfl, by norm_num [BREAKABLE_COLLAPSE_TIME]⟩,
    (breakable_collapse_on_schedule ⟨false, .solid, 0, false⟩ 0 800
      [BreakEvent.leave 100, BreakEvent.upd 700] [BreakEvent.leave 900, BreakEvent.upd 6000]
      rfl rfl
      (by
        intro u hu
        simp only [List.mem_cons, List.not_mem_nil, or_false] at hu
        rcases hu with hu | hu <;> cases hu <;> norm_num [BREAKABLE_COLLAPSE_TIME])
      (by norm_num [BREAKABLE_COLLAPSE_TIME])).2.2.1,
    (breakable_collapse_on_schedule ⟨false, .solid, 0, false⟩ 0 800
      [BreakEvent.leave 100, BreakEvent.upd 700] [BreakEvent.leave 900, BreakEvent.upd 6000]
      rfl rfl
      (by
        intro u hu
        simp only [List.mem_cons, List.not_mem_nil, or_false] at hu
        rcases hu with hu | hu <;> cases hu <;> norm_num [BREAKABLE_COLLAPSE_TIME])
      (by norm_num [BREAKABLE_COLLAPSE_TIME])).2.2.2⟩

end PhyloClimb

namespace PhyloClimb

/- ===================== C10: fake (decoy) hooks ===================== -/

/-- JavaScript `Math.floor` into ℕ (all floored quantities here are
nonnegative). -/
def jsFloorN (q : ℚ) : ℕ := (⌊q⌋).toNat

/-- The warning-phase fill colour of `FakeHookManager.update`: the three
byte fields are disjoint, so the source's `(r << 16) | (g << 8) | b` equals
this arithmetic combination. -/
def warnColor (e : ℚ) : ℕ :=
  let wp := (e - FAKE_HOOK_WARN_TIME) / (FAKE_HOOK_DETACH_TIME - FAKE_HOOK_WARN_TIME)
  jsFloorN (0xee + wp * (0xff - 0xee)) * 65536
    + jsFloorN (0xdd * (1 - wp)) * 256
    + jsFloorN (0x44 * (1 - wp))

/-- One decoy hook of `FakeHookManager` (src/gimmicks/FakeHook.ts): fixed
position, attachment timestamp (0 = not attached), target flag, and the
visual state of its circle (fill colour, fill alpha, drawn x). -/
structure FakeHook where
  x : ℚ
  y : ℚ
  attachedTime : ℚ
  isTarget : Bool
  fillColor : ℕ
  fillAlpha : ℚ
  gx : ℚ
deriving DecidableEq, Repr

/-- `FakeHookManager.onGrappleAttach` for a single hook: when the grapple
target lies within 2 px on both axes, stamp the time and set the flag. -/
def fhAttach (now tx ty : ℚ) (h : FakeHook) : FakeHook :=
  if |h.x - tx| < 2 ∧ |h.y - ty| < 2 then { h with attachedTime := now, isTarget := true }
  else h

/-- `FakeHookManager.onGrappleRelease` for a single hook: a targeted hook is
reset — flag cleared, timer zeroed, fill back to the baseline
`COLOR_FAKE_HOOK` at alpha 0.7 and the circle back at its position. -/
def fhRelease (h : FakeHook) : FakeHook :=
  if h.isTarget then
    { h with
        isTarget := false
        attachedTime := 0
        fillColor := COLOR_FAKE_HOOK
        fillAlpha := 7/10
        gx := h.x }
  else h

/-- `FakeHookManager.update` for a single hook at time `now`; `sinQ` stands
for the library's `Math.sin` used only for the warning shake.  Returns the
new hook and whether a detach fired this frame. -/
def fhUpdate (sinQ : ℚ → ℚ) (now : ℚ) (h : FakeHook) : FakeHook × Bool :=
  if h.isTarget = false ∨ h.attachedTime = 0 then (h, false)
  else
    let e := now - h.attachedTime
    let h1 :=
      if FAKE_HOOK_WARN_TIME ≤ e ∧ e < FAKE_HOOK_DETACH_TIME then
        { h with gx := h.x + sinQ (e * (1/20)) * 3, fillColor := warnColor e, fillAlpha := 1 }
      else h
    if FAKE_HOOK_DETACH_TIME ≤ e then
      ({ h1 with
          isTarget := false
          attachedTime := 0
          fillColor := COLOR_FAKE_HOOK
          fillAlpha := 3/10
          gx := h1.x }, true)
    else (h1, false)

inductive FHEvent
  | attach (t tx ty : ℚ)
  | release
  | upd (t : ℚ)

def fhStep (sinQ : ℚ → ℚ) (h : FakeHook) : FHEvent → FakeHook
  | .attach t tx ty => fhAttach t tx ty h
  | .release => fhRelease h
  | .upd t => (fhUpdate sinQ t h).1

/-- An update strictly before the warn deadline changes nothing and does
not detach. -/
theorem fhUpdate_inert (sinQ : ℚ → ℚ) (u : ℚ) (h : FakeHook)
    (hT : h.isTarget = true) (hA : h.attachedTime ≠ 0)
    (hu : u - h.attachedTime < FAKE_HOOK_WARN_TIME) :
    fhUpdate sinQ u h = (h, false) := by
  have hg : ¬ (h.isTarget = false ∨ h.attachedTime = 0) := by
    rw [hT]
    simp [hA]
  have hw : ¬ (FAKE_HOOK_WARN_TIME ≤ u - h.attachedTime
      ∧ u - h.attachedTime < FAKE_HOOK_DETACH_TIME) := by
    rintro ⟨h1, -⟩
    exact absurd hu (not_lt.mpr h1)
  have hd : ¬ FAKE_HOOK_DETACH_TIME ≤ u - h.attachedTime := by
    intro hdet
    simp only [FAKE_HOOK_WARN_TIME] at hu
    simp only [FAKE_HOOK_DETACH_TIME] at hdet
    linarith
  simp only [fhUpdate]
  rw [if_neg hg, if_neg hd, if_neg hw]

/-- An update at or past the detach deadline fires the forced release. -/
theorem fhUpdate_detaches (sinQ : ℚ → ℚ) (u : ℚ) (h : FakeHook)
    (hT : h.isTarget = true) (hA : h.attachedTime ≠ 0)
    (hd : FAKE_HOOK_DETACH_TIME ≤ u - h.attachedTime) :
    (fhUpdate sinQ u h).2 = true := by
  have hg : ¬ (h.isTarget = false ∨ h.attachedTime = 0) := by
    rw [hT]
    simp [hA]
  simp only [fhUpdate]
  rw [if_neg hg, if_pos hd]

end PhyloClimb

namespace PhyloClimb

/-- C10: attach to a decoy then release before the warning delay: the
attach stamps the timer and sets the flag; every update before the warn
deadline leaves the hook unchanged and does not detach; the manual release
zeroes the timer, clears the flag, and restores the baseline visuals
(`COLOR_FAKE_HOOK`, alpha 0.7, circle at its position); a later attach
starts a fresh countdown — it does not detach before its own deadline and
does detach at it. -/
theorem fake_hook_round_trip (sinQ : ℚ → ℚ) (h : FakeHook) (t₀ t₁ tu td : ℚ)
    (us : List ℚ) (ht₀ : t₀ ≠ 0)
    (hus : ∀ u ∈ us, u - t₀ < FAKE_HOOK_WARN_TIME)
    (ht₁ : t₁ ≠ 0) (htu : tu - t₁ < FAKE_HOOK_WARN_TIME)
    (htd : FAKE_HOOK_DETACH_TIME ≤ td - t₁) :
    (fhAttach t₀ h.x h.y h).isTarget = true
    ∧ (fhAttach t₀ h.x h.y h).attachedTime = t₀
    ∧ (us.map FHEvent.upd).foldl (fhStep sinQ) (fhAttach t₀ h.x h.y h)
        = fhAttach t₀ h.x h.y h
    ∧ (fhRelease (fhAttach t₀ h.x h.y h)).attachedTime = 0
    ∧ (fhRelease (fhAttach t₀ h.x h.y h)).isTarget = false
    ∧ (fhRelease (fhAttach t₀ h.x h.y h)).fillColor = COLOR_FAKE_HOOK
    ∧ (fhRelease (fhAttach t₀ h.x h.y h)).fillAlpha = 7/10
    ∧ (fhRelease (fhAttach t₀ h.x h.y h)).gx = h.x
    ∧ (fhAttach t₁ h.x h.y (fhRelease (fhAttach t₀ h.x h.y h))).attachedTime = t₁
    ∧ (fhUpdate sinQ tu (fhAttach t₁ h.x h.y (fhRelease (fhAttach t₀ h.x h.y h)))).2
        = false
    ∧ (fhUpdate sinQ td (fhAttach t₁ h.x h.y (fhRelease (fhAttach t₀ h.x h.y h)))).2
        = true := by
  have hmatch : |h.x - h.x| < 2 ∧ |h.y - h.y| < 2 := by
    constructor <;> simp <;> norm_num
  have ha : fhAttach t₀ h.x h.y h
      = { h with attachedTime := t₀, isTarget := true } := by
    rw [fhAttach, if_pos hmatch]
  have hrel : fhRelease (fhAttach t₀ h.x h.y h)
      = { h with
            isTarget := false
            attachedTime := 0
            fillColor := COLOR_FAKE_HOOK
            fillAlpha := 7/10
            gx := h.x } := by
    rw [ha, fhRelease, if_pos rfl]
  have ha2 : fhAttach t₁ h.x h.y (fhRelease (fhAttach t₀ h.x h.y h))
      = { h with
            isTarget := true
            attachedTime := t₁
            fillColor := COLOR_FAKE_HOOK
            fillAlpha := 7/10
            gx := h.x } := by
    rw [hrel, fhAttach, if_pos (by exact hmatch)]
  have hfold : ∀ (l : List ℚ), (∀ u ∈ l, u - t₀ < FAKE_HOOK_WARN_TIME) →
      (l.map FHEvent.upd).foldl (fhStep sinQ) (fhAttach t₀ h.x h.y h)
        = fhAttach t₀ h.x h.y h := by
    intro l
    induction l with
    | nil => intro _; rfl
    | cons u t ih =>
        intro hl
        rw [List.map_cons, List.foldl_cons]
        have hstep : fhStep sinQ (fhAttach t₀ h.x h.y h) (FHEvent.upd u)
            = fhAttach t₀ h.x h.y h := by
          show (fhUpdate sinQ u (fhAttach t₀ h.x h.y h)).1 = fhAttach t₀ h.x h.y h
          rw [fhUpdate_inert sinQ u _ (by rw [ha]) (by rw [ha]; exact ht₀)
            (by rw [ha]; exact hl u (by simp))]
        rw [hstep]
        exact ih (fun v hv => hl v (by simp [hv]))
  refine ⟨by rw [ha], by rw [ha], hfold us hus, by rw [hrel], by rw [hrel], by rw [hrel],
    by rw [hrel], by rw [hrel], by rw [ha2], ?_, ?_⟩
  · rw [fhUpdate_inert sinQ tu _ (by rw [ha2]) (by rw [ha2]; exact ht₁)
      (by rw [ha2]; exact htu)]
  · exact fhUpdate_detaches sinQ td _ (by rw [ha2]) (by rw [ha2]; exact ht₁)
      (by rw [ha2]; exact htd)

/-- Witness for C10: attach at time 100, poll at 300 and 650, release, then
re-attach at 2000, poll at 2500 (no detach) and 3000 (detach), with the
shake oscillator instantiated to the zero function. -/
theorem fake_hook_round_trip_witness :
    ((100:ℚ) ≠ 0 ∧ (∀ u ∈ [(300:ℚ), 650], u - 100 < FAKE_HOOK_WARN_TIME)
      ∧ (2000:ℚ) ≠ 0 ∧ (2500:ℚ) - 2000 < FAKE_HOOK_WARN_TIME
      ∧ FAKE_HOOK_DETACH_TIME ≤ (3000:ℚ) - 2000)
    ∧ (fhRelease (fhAttach 100 (⟨400, 3350, 0, false, COLOR_FAKE_HOOK, 7/10, 400⟩ : FakeHook).x
        (⟨400, 3350, 0, false, COLOR_FAKE_HOOK, 7/10, 400⟩ : FakeHook).y
        ⟨400, 3350, 0, false, COLOR_FAKE_HOOK, 7/10, 400⟩)).attachedTime = 0
    ∧ (fhUpdate (fun _ => 0) 3000
        (fhAttach 2000 (⟨400, 3350, 0, false, COLOR_FAKE_HOOK, 7/10, 400⟩ : FakeHook).x
          (⟨400, 3350, 0, false, COLOR_FAKE_HOOK, 7/10, 400⟩ : FakeHook).y
          (fhRelease (fhAttach 100 (⟨400, 3350, 0, false, COLOR_FAKE_HOOK, 7/10, 400⟩ : FakeHook).x
            (⟨400, 3350, 0, false, COLOR_FAKE_HOOK, 7/10, 400⟩ : FakeHook).y
            ⟨400, 3350, 0, false, COLOR_FAKE_HOOK, 7/10, 400⟩)))).2 = true :=
  ⟨⟨by norm_num,
    by
      intro u hu
      simp only [List.mem_cons, List.not_mem_nil, or_false] at hu
      rcases hu with rfl | rfl <;> norm_num [FAKE_HOOK_WARN_TIME],
    by norm_num, by norm_num [FAKE_HOOK_WARN_TIME], by norm_num [FAKE_HOOK_DETACH_TIME]⟩,
    (fake_hook_round_trip (fun _ => 0) ⟨400, 3350, 0, false, COLOR_FAKE_HOOK, 7/10, 400⟩
      100 2000 2500 3000 [300, 650] (by norm_num)
      (by
        intro u hu
        simp only [List.mem_cons, List.not_mem_nil, or_false] at hu
        rcases hu with rfl | rfl <;> norm_num [FAKE_HOOK_WARN_TIME])
      (by norm_num) (by norm_num [FAKE_HOOK_WARN_TIME])
      (by norm_num [FAKE_HOOK_DETACH_TIME])).2.2.2.1,
    (fake_hook_round_trip (fun _ => 0) ⟨400, 3350, 0, false, COLOR_FAKE_HOOK, 7/10, 400⟩
      100 2000 2500 3000 [300, 650] (by norm_num)
      (by
        intro u hu
        simp only [List.mem_cons, List.not_mem_nil, or_false] at hu
        rcases hu with rfl | rfl <;> norm_num [FAKE_HOOK_WARN_TIME])
      (by norm_num) (by norm_num [FAKE_HOOK_WARN_TIME])
      (by norm_num [FAKE_HOOK_DETACH_TIME])).2.2.2.2.2.2.2.2.2.2⟩

end PhyloClimb
